import Mathlib

/-!
# Verification of the ide-login Moodle authentication core

Shallow embedding of the repository's authentication pipeline:

* `MoodleAuth.verifyPassword` (multi-format password verification dispatcher),
* `MoodleAuth.getUserByUsername` / `MoodleAuth.authenticateUser`
  (credential retrieval and orchestration),
* `MoodleAuth.updateLastLogin` (best-effort last-login write),
* the `/api/moodle-login` handler of `server.js`
  (validation, static admin short-circuit, error classification).

External cryptographic primitives that the source calls through libraries
(`bcrypt.compare`, `apache-md5`) are modelled as function parameters whose
`none` result stands for a thrown exception; the `crypto` MD5 and SHA-1
digests are implemented concretely below, operating on the UTF-8 bytes of
the input string exactly as Node's `hash.update(string)` does.
-/

namespace IdeLogin

/-! ## Byte-level helpers -/

/-- 32-bit truncation. -/
def u32 (n : Nat) : Nat := n % 4294967296

/-- Addition modulo 2^32. -/
def add32 (a b : Nat) : Nat := (a + b) % 4294967296

/-- Bitwise complement on 32-bit values (inputs must already be `< 2^32`). -/
def not32 (a : Nat) : Nat := 4294967295 - a

/-- Left rotation of a 32-bit value by `n` bits. -/
def rotl32 (x n : Nat) : Nat := ((x <<< n) ||| (x >>> (32 - n))) % 4294967296

/-- UTF-8 encoding of a single Unicode code point, as a list of bytes. -/
def utf8Bytes (c : Nat) : List Nat :=
  if c < 128 then [c]
  else if c < 2048 then [192 ||| (c >>> 6), 128 ||| (c &&& 63)]
  else if c < 65536 then
    [224 ||| (c >>> 12), 128 ||| ((c >>> 6) &&& 63), 128 ||| (c &&& 63)]
  else
    [240 ||| (c >>> 18), 128 ||| ((c >>> 12) &&& 63),
     128 ||| ((c >>> 6) &&& 63), 128 ||| (c &&& 63)]

/-- The UTF-8 bytes of a string (Node's default encoding for `hash.update`). -/
def strBytes (s : String) : List Nat :=
  s.data.foldr (fun c acc => utf8Bytes c.toNat ++ acc) []

/-- Little-endian bytes of a 32-bit word. -/
def le4 (n : Nat) : List Nat :=
  [n % 256, (n >>> 8) % 256, (n >>> 16) % 256, (n >>> 24) % 256]

/-- Little-endian bytes (8 of them) of a 64-bit length field. -/
def le8 (n : Nat) : List Nat :=
  [n % 256, (n >>> 8) % 256, (n >>> 16) % 256, (n >>> 24) % 256,
   (n >>> 32) % 256, (n >>> 40) % 256, (n >>> 48) % 256, (n >>> 56) % 256]

/-- Big-endian bytes (8 of them) of a 64-bit length field. -/
def be8 (n : Nat) : List Nat :=
  [(n >>> 56) % 256, (n >>> 48) % 256, (n >>> 40) % 256, (n >>> 32) % 256,
   (n >>> 24) % 256, (n >>> 16) % 256, (n >>> 8) % 256, n % 256]

/-- Split a byte list into 64-byte chunks (`fuel` bounds the recursion). -/
def chunks64 : Nat → List Nat → List (List Nat)
  | 0, _ => []
  | _, [] => []
  | fuel + 1, l => l.take 64 :: chunks64 fuel (l.drop 64)

/-- Group bytes into 32-bit words, little-endian (`fuel` bounds recursion). -/
def wordsLE : Nat → List Nat → List Nat
  | 0, _ => []
  | _, [] => []
  | fuel + 1, l =>
    (l.getD 0 0 ||| (l.getD 1 0 <<< 8) ||| (l.getD 2 0 <<< 16) |||
     (l.getD 3 0 <<< 24)) :: wordsLE fuel (l.drop 4)

/-- Group bytes into 32-bit words, big-endian (`fuel` bounds recursion). -/
def wordsBE : Nat → List Nat → List Nat
  | 0, _ => []
  | _, [] => []
  | fuel + 1, l =>
    ((l.getD 0 0 <<< 24) ||| (l.getD 1 0 <<< 16) ||| (l.getD 2 0 <<< 8) |||
     l.getD 3 0) :: wordsBE fuel (l.drop 4)

/-! ## MD5 (RFC 1321) -/

/-- The 64 MD5 sine-derived constants. -/
def md5K : List Nat :=
  [0xd76aa478, 0xe8c7b756, 0x242070db, 0xc1bdceee,
   0xf57c0faf, 0x4787c62a, 0xa8304613, 0xfd469501,
   0x698098d8, 0x8b44f7af, 0xffff5bb1, 0x895cd7be,
   0x6b901122, 0xfd987193, 0xa679438e, 0x49b40821,
   0xf61e2562, 0xc040b340, 0x265e5a51, 0xe9b6c7aa,
   0xd62f105d, 0x02441453, 0xd8a1e681, 0xe7d3fbc8,
   0x21e1cde6, 0xc33707d6, 0xf4d50d87, 0x455a14ed,
   0xa9e3e905, 0xfcefa3f8, 0x676f02d9, 0x8d2a4c8a,
   0xfffa3942, 0x8771f681, 0x6d9d6122, 0xfde5380c,
   0xa4beea44, 0x4bdecfa9, 0xf6bb4b60, 0xbebfbc70,
   0x289b7ec6, 0xeaa127fa, 0xd4ef3085, 0x04881d05,
   0xd9d4d039, 0xe6db99e5, 0x1fa27cf8, 0xc4ac5665,
   0xf4292244, 0x432aff97, 0xab9423a7, 0xfc93a039,
   0x655b59c3, 0x8f0ccc92, 0xffeff47d, 0x85845dd1,
   0x6fa87e4f, 0xfe2ce6e0, 0xa3014314, 0x4e0811a1,
   0xf7537e82, 0xbd3af235, 0x2ad7d2bb, 0xeb86d391]

/-- The 64 MD5 per-step left-rotation amounts. -/
def md5S : List Nat :=
  [7, 12, 17, 22, 7, 12, 17, 22, 7, 12, 17, 22, 7, 12, 17, 22,
   5,  9, 14, 20, 5,  9, 14, 20, 5,  9, 14, 20, 5,  9, 14, 20,
   4, 11, 16, 23, 4, 11, 16, 23, 4, 11, 16, 23, 4, 11, 16, 23,
   6, 10, 15, 21, 6, 10, 15, 21, 6, 10, 15, 21, 6, 10, 15, 21]

/-- One 64-step MD5 compression of a 16-word block onto the running state. -/
def md5Block (block : List Nat) (st : Nat × Nat × Nat × Nat) :
    Nat × Nat × Nat × Nat :=
  let (a0, b0, c0, d0) := st
  let f := (List.range 64).foldl
    (fun (q : Nat × Nat × Nat × Nat) i =>
      let (a, b, c, d) := q
      let (f, g) :=
        if i < 16 then ((b &&& c) ||| (not32 b &&& d), i)
        else if i < 32 then ((d &&& b) ||| (not32 d &&& c), (5 * i + 1) % 16)
        else if i < 48 then (b ^^^ c ^^^ d, (3 * i + 5) % 16)
        else (c ^^^ (b ||| not32 d), (7 * i) % 16)
      let t := add32 (add32 (add32 f a) (md5K.getD i 0)) (block.getD g 0)
      (d, add32 b (rotl32 t (md5S.getD i 0)), b, c))
    (a0, b0, c0, d0)
  (add32 a0 f.1, add32 b0 f.2.1, add32 c0 f.2.2.1, add32 d0 f.2.2.2)

/-- MD5 padding: `0x80`, zeros to 56 mod 64, then the bit length LE. -/
def md5Pad (msg : List Nat) : List Nat :=
  msg ++ [128] ++
    List.replicate ((56 + 64 - (msg.length + 1) % 64) % 64) 0 ++
    le8 ((8 * msg.length) % 18446744073709551616)

/-- The final MD5 state over a byte message. -/
def md5State (msg : List Nat) : Nat × Nat × Nat × Nat :=
  let padded := md5Pad msg
  let blocks := (chunks64 padded.length padded).map
    (fun b => wordsLE b.length b)
  blocks.foldl (fun st blk => md5Block blk st)
    (0x67452301, 0xefcdab89, 0x98badcfe, 0x10325476)

/-- The 16-byte MD5 digest of a byte message. -/
def md5Bytes (msg : List Nat) : List Nat :=
  le4 (md5State msg).1 ++ le4 (md5State msg).2.1 ++
    le4 (md5State msg).2.2.1 ++ le4 (md5State msg).2.2.2

/-! ## SHA-1 (RFC 3174) -/

/-- The SHA-1 message schedule: extend 16 words to 80. -/
def sha1Schedule (w : List Nat) : List Nat :=
  (List.range 64).foldl
    (fun acc _ =>
      let n := acc.length
      acc ++ [rotl32 (acc.getD (n - 3) 0 ^^^ acc.getD (n - 8) 0 ^^^
                      acc.getD (n - 14) 0 ^^^ acc.getD (n - 16) 0) 1])
    w

/-- One 80-step SHA-1 compression of a 16-word block onto the running state. -/
def sha1Block (block : List Nat) (st : Nat × Nat × Nat × Nat × Nat) :
    Nat × Nat × Nat × Nat × Nat :=
  let (h0, h1, h2, h3, h4) := st
  let w := sha1Schedule block
  let f := (List.range 80).foldl
    (fun (q : Nat × Nat × Nat × Nat × Nat) i =>
      let (a, b, c, d, e) := q
      let (f, k) :=
        if i < 20 then ((b &&& c) ||| (not32 b &&& d), 0x5a827999)
        else if i < 40 then (b ^^^ c ^^^ d, 0x6ed9eba1)
        else if i < 60 then
          ((b &&& c) ||| (b &&& d) ||| (c &&& d), 0x8f1bbcdc)
        else (b ^^^ c ^^^ d, 0xca62c1d6)
      let t := add32 (add32 (add32 (add32 (rotl32 a 5) f) e) k) (w.getD i 0)
      (t, a, rotl32 b 30, c, d))
    (h0, h1, h2, h3, h4)
  (add32 h0 f.1, add32 h1 f.2.1, add32 h2 f.2.2.1,
   add32 h3 f.2.2.2.1, add32 h4 f.2.2.2.2)

/-- Big-endian bytes of a 32-bit word. -/
def be4 (n : Nat) : List Nat :=
  [(n >>> 24) % 256, (n >>> 16) % 256, (n >>> 8) % 256, n % 256]

/-- SHA-1 padding: `0x80`, zeros to 56 mod 64, then the bit length BE. -/
def sha1Pad (msg : List Nat) : List Nat :=
  msg ++ [128] ++
    List.replicate ((56 + 64 - (msg.length + 1) % 64) % 64) 0 ++
    be8 ((8 * msg.length) % 18446744073709551616)

/-- The 20-byte SHA-1 digest of a byte message. -/
def sha1Bytes (msg : List Nat) : List Nat :=
  let padded := sha1Pad msg
  let blocks := (chunks64 padded.length padded).map
    (fun b => wordsBE b.length b)
  let (a, b, c, d, e) := blocks.foldl (fun st blk => sha1Block blk st)
    (0x67452301, 0xefcdab89, 0x98badcfe, 0x10325476, 0xc3d2e1f0)
  be4 a ++ be4 b ++ be4 c ++ be4 d ++ be4 e

/-! ## Hex rendering -/

/-- The sixteen lowercase hex digits. -/
def hexDigit (n : Nat) : Char := "0123456789abcdef".data.getD n '0'

/-- Two lowercase hex characters of a byte. -/
def byteHex (b : Nat) : List Char := [hexDigit (b / 16), hexDigit (b % 16)]

/-- Lowercase hex string of a byte list. -/
def bytesHex (l : List Nat) : String :=
  ⟨l.foldr (fun b acc => byteHex b ++ acc) []⟩

/-- `crypto.createHash("md5").update(s).digest("hex")`. -/
def md5hex (s : String) : String := bytesHex (md5Bytes (strBytes s))

/-- `crypto.createHash("sha1").update(s).digest("hex")`. -/
def sha1hex (s : String) : String := bytesHex (sha1Bytes (strBytes s))

set_option maxRecDepth 20000 in
/-- Sanity anchor: the repository README lists this digest for `"hello"`. -/
theorem md5hex_hello : md5hex "hello" = "5d41402abc4b2a76b9719d911017c592" := by
  decide

set_option maxRecDepth 40000 in
/-- Sanity anchor for the SHA-1 implementation. -/
theorem sha1hex_hello :
    sha1hex "hello" = "aaf4c61ddcc5e8a2dabede0f3b482cd9aea9434d" := by
  decide

end IdeLogin

namespace IdeLogin

/-! ## JavaScript string primitives

The source manipulates strings with `trim`, `startsWith`, `split(":")`,
`toLowerCase`, length and regexp hex tests.  They are modelled here over
the character list of the string so that both kernel evaluation and
inductive reasoning are direct.
-/

/-- The whitespace characters relevant to `String.prototype.trim` for the
ASCII inputs this system handles. -/
def isJsWs (c : Char) : Bool :=
  c = ' ' ∨ c = '\t' ∨ c = '\n' ∨ c = '\x0d' ∨ c = '\x0b' ∨ c = '\x0c'

/-- `s.trim()`: strip leading and trailing whitespace. -/
def jsTrim (s : String) : String :=
  ⟨((s.data.dropWhile isJsWs).reverse.dropWhile isJsWs).reverse⟩

/-- Character-list prefix test. -/
def listPrefix : List Char → List Char → Bool
  | [], _ => true
  | _ :: _, [] => false
  | a :: as, b :: bs => a = b && listPrefix as bs

/-- `s.startsWith(p)`. -/
def jsStartsWith (s p : String) : Bool := listPrefix p.data s.data

/-- Character-list infix test. -/
def listInfix (p : List Char) : List Char → Bool
  | [] => listPrefix p []
  | a :: as => listPrefix p (a :: as) || listInfix p as

/-- `s.includes(sub)`. -/
def jsIncludes (s sub : String) : Bool := listInfix sub.data s.data

/-- `l.split(c)` on character lists: splits at every occurrence of `c`,
producing at least one (possibly empty) segment. -/
def splitChar (c : Char) : List Char → List (List Char)
  | [] => [[]]
  | x :: xs =>
    if x = c then [] :: splitChar c xs
    else
      match splitChar c xs with
      | [] => [[x]]
      | h :: t => (x :: h) :: t

/-- `s.split(":")` (single-character separator). -/
def jsSplit (c : Char) (s : String) : List String :=
  (splitChar c s.data).map (fun l => ⟨l⟩)

/-- ASCII lowercasing of one character (what `toLowerCase` does on the
ASCII range this system compares): code points 65–90 shift by 32. -/
def lowerChar (c : Char) : Char :=
  if 65 ≤ c.toNat ∧ c.toNat ≤ 90 then Char.ofNat (c.toNat + 32) else c

/-- `s.toLowerCase()` on ASCII data. -/
def jsLower (s : String) : String := ⟨s.data.map lowerChar⟩

/-- One character of the regexp class `[a-f0-9]` with the `i` flag
(code points of `0`–`9`, `a`–`f`, `A`–`F`). -/
def isHexChar (c : Char) : Bool :=
  (48 ≤ c.toNat ∧ c.toNat ≤ 57) ∨ (97 ≤ c.toNat ∧ c.toNat ≤ 102) ∨
    (65 ≤ c.toNat ∧ c.toNat ≤ 70)

/-- `/^[a-f0-9]+$/i.test(s)`: non-empty and all case-insensitive hex. -/
def isHexStr (s : String) : Bool := !s.data.isEmpty && s.data.all isHexChar

/-- `s.length` as the source observes it (character count). -/
def jsLen (s : String) : Nat := s.data.length

end IdeLogin

namespace IdeLogin

/-! ## PasswordVerifier (`MoodleAuth.verifyPassword`)

`bc` models the external `bcrypt.compare` primitive and `am` the external
`apache-md5` crypt primitive; a `none` result models the primitive throwing,
which the source's `try/catch` turns into `false`.
-/

/-- The hash-encoding classification the specification derives from the
branch structure of `verifyPassword`. -/
inductive HashEncoding where
  | Bcrypt
  | Md5Crypt
  | LegacyPlainMd5
  | LegacySaltedMd5
  | LegacySha1
  | Unknown
deriving DecidableEq, Repr

/-- `MoodleAuth.verifyPassword(plainPassword, hashedPassword)`: the ordered
format dispatch of `lib/moodle-auth.js` (in `setup-ide-environment.sh`,
lines 552–596). -/
def verifyPassword (bc : String → String → Option Bool)
    (am : String → String → Option String)
    (plain hashed : String) : Bool :=
  if plain == "" || hashed == "" then false
  else if jsStartsWith hashed "$2y$" || jsStartsWith hashed "$2a$" then
    match bc plain hashed with
    | none => false
    | some b => b
  else if jsStartsWith hashed "$1$" then
    match am plain hashed with
    | none => false
    | some r => r == hashed
  else if jsLen hashed == 32 && isHexStr hashed then
    jsLower (md5hex plain) == jsLower hashed
  else if jsIncludes hashed ":" &&
      jsLen ((jsSplit ':' hashed).getD 0 "") == 32 &&
      (jsSplit ':' hashed).getD 1 "" != "" then
    jsLower (md5hex (plain ++ (jsSplit ':' hashed).getD 1 "")) ==
      jsLower ((jsSplit ':' hashed).getD 0 "")
  else if jsLen hashed == 40 && isHexStr hashed then
    jsLower (sha1hex plain) == jsLower hashed
  else false

/-- The encoding `verifyPassword` selects for a stored hash, read off the
same branch conditions in the same order. -/
def classify (hashed : String) : HashEncoding :=
  if jsStartsWith hashed "$2y$" || jsStartsWith hashed "$2a$" then .Bcrypt
  else if jsStartsWith hashed "$1$" then .Md5Crypt
  else if jsLen hashed == 32 && isHexStr hashed then .LegacyPlainMd5
  else if jsIncludes hashed ":" &&
      jsLen ((jsSplit ':' hashed).getD 0 "") == 32 &&
      (jsSplit ':' hashed).getD 1 "" != "" then .LegacySaltedMd5
  else if jsLen hashed == 40 && isHexStr hashed then .LegacySha1
  else .Unknown

/-- The comparison `verifyPassword` performs for each encoding. -/
def encodingCompare (bc : String → String → Option Bool)
    (am : String → String → Option String)
    (plain : String) (e : HashEncoding) (hashed : String) : Bool :=
  match e with
  | .Bcrypt =>
    match bc plain hashed with
    | none => false
    | some b => b
  | .Md5Crypt =>
    match am plain hashed with
    | none => false
    | some r => r == hashed
  | .LegacyPlainMd5 => jsLower (md5hex plain) == jsLower hashed
  | .LegacySaltedMd5 =>
    jsLower (md5hex (plain ++ (jsSplit ':' hashed).getD 1 "")) ==
      jsLower ((jsSplit ':' hashed).getD 0 "")
  | .LegacySha1 => jsLower (sha1hex plain) == jsLower hashed
  | .Unknown => false

/-- Classification rules exactly as claim C4 words them: rule 4 requires the
segment before the colon to be 32 *hexadecimal* characters. -/
def classifyClaimC4 (hashed : String) : HashEncoding :=
  if jsStartsWith hashed "$2y$" || jsStartsWith hashed "$2a$" then .Bcrypt
  else if jsStartsWith hashed "$1$" then .Md5Crypt
  else if jsLen hashed == 32 && isHexStr hashed then .LegacyPlainMd5
  else if jsIncludes hashed ":" &&
      isHexStr ((jsSplit ':' hashed).getD 0 "") &&
      jsLen ((jsSplit ':' hashed).getD 0 "") == 32 &&
      (jsSplit ':' hashed).getD 1 "" != "" then .LegacySaltedMd5
  else if jsLen hashed == 40 && isHexStr hashed then .LegacySha1
  else .Unknown

/-- Classification rules as amended: rule 4 asks only for a 32-character
(not necessarily hexadecimal) segment before the first colon, and a
non-empty segment between the first and a possible second colon. -/
def classifyAmendedC4 (hashed : String) : HashEncoding :=
  if jsStartsWith hashed "$2y$" || jsStartsWith hashed "$2a$" then .Bcrypt
  else if jsStartsWith hashed "$1$" then .Md5Crypt
  else if jsLen hashed == 32 && isHexStr hashed then .LegacyPlainMd5
  else
    match jsSplit ':' hashed with
    | p0 :: p1 :: _ =>
      if jsLen p0 == 32 && p1 != "" then .LegacySaltedMd5
      else if jsLen hashed == 40 && isHexStr hashed then .LegacySha1
      else .Unknown
    | _ =>
      if jsLen hashed == 40 && isHexStr hashed then .LegacySha1
      else .Unknown

/-! ## UserRecordFetcher and orchestration (`MoodleAuth`) -/

/-- One row of the `mdl_user` table, with the columns the system reads. -/
structure UserRow where
  id : Nat
  username : String
  password : String
  email : String
  firstname : String
  lastname : String
  auth : String
  confirmed : Nat
  deleted : Nat
  suspended : Nat
  timecreated : Nat
  timemodified : Nat
  lastlogin : Nat
deriving DecidableEq, Repr

/-- The user store as `db.query` exposes it: either the query result rows
or a thrown driver error (connection acquisition or query failure). -/
abbrev Store := Except String (List UserRow)

/-- `MoodleAuth.getUserByUsername`: `SELECT … WHERE username = ? AND
deleted = 0 LIMIT 1` (lines 534–546). -/
def getUserByUsername (store : Store) (username : String) :
    Except String (Option UserRow) :=
  match store with
  | .error m => .error m
  | .ok rows => .ok (rows.find? (fun r => r.username == username && r.deleted == 0))

/-- The identity snapshot `authenticateUser` returns on success. -/
structure AuthUser where
  id : Nat
  username : String
  email : String
  firstname : String
  lastname : String
  fullname : String
  auth : String
  timecreated : Nat
  timemodified : Nat
  lastlogin : Nat
deriving DecidableEq, Repr

/-- The snapshot built from a fetched row (password omitted). -/
def mkAuthUser (u : UserRow) : AuthUser :=
  { id := u.id, username := u.username, email := u.email,
    firstname := u.firstname, lastname := u.lastname,
    fullname := jsTrim (u.firstname ++ " " ++ u.lastname),
    auth := u.auth, timecreated := u.timecreated,
    timemodified := u.timemodified, lastlogin := u.lastlogin }

/-- `MoodleAuth.authenticateUser(username, password)` (lines 479–529): an
`Except.error` carries the message of the thrown `Error`. -/
def authenticateUser (bc : String → String → Option Bool)
    (am : String → String → Option String)
    (store : Store) (username password : String) : Except String AuthUser :=
  let sanitized := jsTrim username
  if sanitized = "" ∨ jsLen sanitized > 100 then .error "Invalid username format"
  else
    match getUserByUsername store sanitized with
    | .error m => .error m
    | .ok none => .error "User not found"
    | .ok (some user) =>
      if user.deleted = 1 then .error "User account is deleted"
      else if user.suspended = 1 then .error "User account is suspended"
      else if user.confirmed = 0 then .error "User account is not confirmed"
      else if verifyPassword bc am password user.password then .ok (mkAuthUser user)
      else .error "Invalid password"

/-- `MoodleAuth.updateLastLogin(userId)` (lines 670–679): `UPDATE … SET
lastlogin = UNIX_TIMESTAMP() WHERE id = ?`. -/
def updateLastLogin (rows : List UserRow) (now : Nat) (userId : Nat) :
    List UserRow :=
  rows.map (fun r => if r.id = userId then { r with lastlogin := now } else r)

end IdeLogin

namespace IdeLogin

/-! ## The `/api/moodle-login` handler of `server.js` -/

/-- The statically configured privileged identity (`getAdminCredentials`,
`server.js` lines 138–146). -/
structure AdminCreds where
  username : String
  password : String
  userId : String
  firstname : String
  lastname : String
deriving DecidableEq, Repr

/-- `process.env.X || default`: an unset or empty variable falls back. -/
def envOr (v : Option String) (d : String) : String :=
  match v with
  | none => d
  | some s => if s == "" then d else s

/-- `getAdminCredentials()` over an environment map. -/
def getAdminCredentials (env : String → Option String) : AdminCreds :=
  { username := envOr (env "ADMIN_USERNAME") "admin",
    password := envOr (env "ADMIN_PASSWORD") "muadmin2025",
    userId := envOr (env "ADMIN_USER_ID") "admin-1",
    firstname := envOr (env "ADMIN_FIRSTNAME") "Admin",
    lastname := envOr (env "ADMIN_LASTNAME") "User" }

/-- The JSON body the handler sends back (the fields the claims observe). -/
structure LoginResponse where
  status : Nat
  success : Bool
  message : Option String
  error : Option String
  isAdmin : Option Bool
  userId : Option String
  username : Option String
  email : Option String
  fullName : Option String
  authMethod : Option String
deriving DecidableEq, Repr

/-- A failure response carrying a message and a machine-readable code. -/
def failResp (status : Nat) (msg code : String) : LoginResponse :=
  { status := status, success := false, message := some msg,
    error := some code, isAdmin := none, userId := none, username := none,
    email := none, fullName := none, authMethod := none }

/-- The immediate success response of the static admin short-circuit
(`server.js` lines 263–281). -/
def adminResp (a : AdminCreds) : LoginResponse :=
  { status := 200, success := true, message := none, error := none,
    isAdmin := some true, userId := some a.userId,
    username := some a.username, email := some "admin@euclid-mu.in",
    fullName := some (a.firstname ++ " " ++ a.lastname), authMethod := none }

/-- The success response of the database path (`server.js` lines 305–317). -/
def userResp (u : AuthUser) : LoginResponse :=
  { status := 200, success := true, message := some "Authentication successful",
    error := none, isAdmin := some false, userId := some (toString u.id),
    username := some u.username, email := some u.email,
    fullName := some u.fullname, authMethod := some u.auth }

/-- `dbManager`/`moodleAuth` state: `none` when initialization never
completed, otherwise the store (which may itself throw on query). -/
abbrev DbState := Option Store

/-- The `/api/moodle-login` handler (`server.js` lines 215–354).  Returns the
response, the number of store queries issued, and the store afterwards.
`now` is the `UNIX_TIMESTAMP()` the last-login update writes. -/
def moodleLoginHandler (bc : String → String → Option Bool)
    (am : String → String → Option String)
    (env : String → Option String) (db : DbState) (now : Nat)
    (body : Option (String × String)) : LoginResponse × Nat × DbState :=
  match body with
  | none => (failResp 400 "Request body is required" "MISSING_BODY", 0, db)
  | some (username, password) =>
    if username = "" ∨ password = "" then
      (failResp 400 "Username and password are required" "MISSING_CREDENTIALS",
       0, db)
    else
      let sanitized := jsTrim username
      if jsLen sanitized = 0 ∨ jsLen sanitized > 100 then
        (failResp 400 "Invalid username format" "INVALID_USERNAME", 0, db)
      else
        let adminCreds := getAdminCredentials env
        if sanitized = adminCreds.username ∧ password = adminCreds.password then
          (adminResp adminCreds, 0, db)
        else
          match db with
          | none =>
            (failResp 503 "Authentication service temporarily unavailable"
              "DATABASE_UNAVAILABLE", 0, db)
          | some store =>
            match authenticateUser bc am store sanitized password with
            | .ok user =>
              let store2 : Store :=
                match store with
                | .ok rows => .ok (updateLastLogin rows now user.id)
                | .error m => .error m
              (userResp user, 2, some store2)
            | .error m =>
              (failResp 401 "Invalid username or password"
                (if jsIncludes m "not found" then "USER_NOT_FOUND"
                 else "INVALID_CREDENTIALS"), 1, some store)

end IdeLogin

namespace IdeLogin

/-! ## Concrete instances used by witnesses and counterexamples -/

/-- A bcrypt comparator that always throws (irrelevant to non-bcrypt rows). -/
def bcNone : String → String → Option Bool := fun _ _ => none

/-- An apache-md5 primitive that always throws. -/
def amNone : String → String → Option String := fun _ _ => none

/-- An environment with every variable unset. -/
def envNone : String → Option String := fun _ => none

/-- An account using a non-`manual` auth method, otherwise fully active,
with a legacy plain-MD5 password hash for `"pw"`. -/
def ldapRow : UserRow :=
  { id := 7, username := "lena", password := md5hex "pw",
    email := "lena@example.org", firstname := "Le", lastname := "Na",
    auth := "ldap", confirmed := 1, deleted := 0, suspended := 0,
    timecreated := 0, timemodified := 0, lastlogin := 0 }

/-- An active `manual` account with a plain-MD5 hash for `"s3cret"`. -/
def manualRow : UserRow :=
  { id := 3, username := "mary", password := md5hex "s3cret",
    email := "mary@example.org", firstname := "Ma", lastname := "Ry",
    auth := "manual", confirmed := 1, deleted := 0, suspended := 0,
    timecreated := 0, timemodified := 0, lastlogin := 0 }

/-- A suspended account. -/
def suspendedRow : UserRow :=
  { id := 4, username := "sid", password := md5hex "pw",
    email := "sid@example.org", firstname := "Si", lastname := "Da",
    auth := "manual", confirmed := 1, deleted := 0, suspended := 1,
    timecreated := 0, timemodified := 0, lastlogin := 0 }

/-! ## Helper lemmas: characters and hex digests -/

/-- A hex character is not `'$'` and not `':'`. -/
theorem isHexChar_ne (c : Char) (h : isHexChar c = true) :
    c ≠ '$' ∧ c ≠ ':' := by
  have hn : ¬ (c.toNat = 36 ∨ c.toNat = 58) := by
    simp only [isHexChar, decide_eq_true_eq] at h
    omega
  constructor
  · intro he; exact hn (Or.inl (by rw [he]; rfl))
  · intro he; exact hn (Or.inr (by rw [he]; rfl))

/-- The sixteen lowercase hex characters. -/
def lowerHexChars : List Char := "0123456789abcdef".data

theorem hexDigit_mem : ∀ n < 16, hexDigit n ∈ lowerHexChars := by decide

theorem lowerHexChars_fixed : ∀ c ∈ lowerHexChars, lowerChar c = c := by decide

theorem lowerHexChars_hex : ∀ c ∈ lowerHexChars, isHexChar c = true := by
  decide

theorem lowerHexChars_ne (c : Char) (h : c ∈ lowerHexChars) :
    c ≠ '$' ∧ c ≠ ':' :=
  isHexChar_ne c (lowerHexChars_hex c h)

/-- Every byte of `le4` is below 256. -/
theorem le4_lt (n : Nat) : ∀ b ∈ le4 n, b < 256 := by
  intro b hb
  simp only [le4, List.mem_cons, List.not_mem_nil, or_false] at hb
  rcases hb with h | h | h | h <;> subst h <;> exact Nat.mod_lt _ (by norm_num)

/-- The MD5 digest has sixteen bytes. -/
theorem md5Bytes_length (msg : List Nat) : (md5Bytes msg).length = 16 := by
  simp [md5Bytes, le4]

/-- Every MD5 digest byte is below 256. -/
theorem md5Bytes_lt (msg : List Nat) : ∀ b ∈ md5Bytes msg, b < 256 := by
  intro b hb
  simp only [md5Bytes, List.mem_append] at hb
  rcases hb with ((h | h) | h) | h <;> exact le4_lt _ b h

/-- The character data of `bytesHex`. -/
theorem bytesHex_data (l : List Nat) :
    (bytesHex l).data = l.foldr (fun b acc => byteHex b ++ acc) [] := rfl

/-- Hex rendering doubles the length. -/
theorem bytesHex_data_length (l : List Nat) :
    (bytesHex l).data.length = 2 * l.length := by
  rw [bytesHex_data]
  induction l with
  | nil => rfl
  | cons b t ih =>
    simp only [List.foldr_cons, List.length_append, List.length_cons, ih]
    simp [byteHex]
    omega

/-- Every character of a hex rendering of bytes is a lowercase hex digit. -/
theorem bytesHex_data_mem (l : List Nat) (hl : ∀ b ∈ l, b < 256) :
    ∀ c ∈ (bytesHex l).data, c ∈ lowerHexChars := by
  rw [bytesHex_data]
  induction l with
  | nil => simp
  | cons b t ih =>
    intro c hc
    have hb : b < 256 := hl b (List.mem_cons_self b t)
    simp only [List.foldr_cons, byteHex, List.cons_append, List.nil_append,
      List.mem_cons] at hc
    rcases hc with h | h | h
    · exact h ▸ hexDigit_mem _ (by omega)
    · exact h ▸ hexDigit_mem _ (Nat.mod_lt _ (by norm_num))
    · exact ih (fun x hx => hl x (List.mem_cons_of_mem b hx)) c h

/-- The MD5 hex digest has 32 characters. -/
theorem md5hex_length (s : String) : (md5hex s).data.length = 32 := by
  rw [md5hex, bytesHex_data_length, md5Bytes_length]

/-- Every character of an MD5 hex digest is a lowercase hex digit. -/
theorem md5hex_mem (s : String) :
    ∀ c ∈ (md5hex s).data, c ∈ lowerHexChars :=
  bytesHex_data_mem _ (md5Bytes_lt _)

/-- Two strings with the same character data are equal. -/
theorem strExt {s t : String} (h : s.data = t.data) : s = t := by
  cases s; cases t; simp_all

/-- Lowercasing fixes an MD5 hex digest. -/
theorem jsLower_md5hex (s : String) : jsLower (md5hex s) = md5hex s := by
  apply strExt
  show (md5hex s).data.map lowerChar = (md5hex s).data
  conv_rhs => rw [show (md5hex s).data = (md5hex s).data.map id from
    (List.map_id _).symm]
  exact List.map_congr_left (fun c hc => lowerHexChars_fixed c (md5hex_mem s c hc))

/-- An MD5 hex digest is a non-empty all-hex string. -/
theorem isHexStr_md5hex (s : String) : isHexStr (md5hex s) = true := by
  have hlen := md5hex_length s
  have hne : (md5hex s).data.isEmpty = false := by
    cases hd : (md5hex s).data with
    | nil => rw [hd] at hlen; simp at hlen
    | cons a t => rfl
  simp only [isHexStr, hne, Bool.not_false, Bool.true_and, List.all_eq_true]
  exact fun c hc => lowerHexChars_hex c (md5hex_mem s c hc)

end IdeLogin

namespace IdeLogin

/-! ## Helper lemmas: trim, split, includes -/

/-- A character surviving at the head of `dropWhile` fails the predicate. -/
theorem dropWhile_head?_false (p : Char → Bool) (l : List Char) (c : Char)
    (h : (l.dropWhile p).head? = some c) : p c = false := by
  induction l with
  | nil => simp at h
  | cons a t ih =>
    by_cases hp : p a = true
    · rw [List.dropWhile_cons, if_pos hp] at h
      exact ih h
    · simp only [Bool.not_eq_true] at hp
      rw [List.dropWhile_cons, if_neg (by simp [hp])] at h
      simp only [List.head?_cons, Option.some.injEq] at h
      rw [← h]
      exact hp

/-- Dropping while a predicate fails at the head is the identity. -/
theorem head_false_dropWhile_eq (p : Char → Bool) (l : List Char)
    (h : ∀ c, l.head? = some c → p c = false) : l.dropWhile p = l := by
  cases l with
  | nil => rfl
  | cons a t => simp [List.dropWhile_cons, h a rfl]

/-- `dropWhile` is idempotent. -/
theorem dropWhile_idem (p : Char → Bool) (l : List Char) :
    (l.dropWhile p).dropWhile p = l.dropWhile p := by
  induction l with
  | nil => rfl
  | cons a t ih =>
    by_cases hp : p a = true
    · simp [List.dropWhile_cons, hp, ih]
    · simp only [Bool.not_eq_true] at hp
      simp [List.dropWhile_cons, hp]

/-- `trim` is idempotent (`jsTrim (jsTrim s) = jsTrim s`). -/
theorem jsTrim_idem (s : String) : jsTrim (jsTrim s) = jsTrim s := by
  apply strExt
  show (((((s.data.dropWhile isJsWs).reverse.dropWhile
      isJsWs).reverse).dropWhile isJsWs).reverse.dropWhile isJsWs).reverse =
    ((s.data.dropWhile isJsWs).reverse.dropWhile isJsWs).reverse
  set A := s.data.dropWhile isJsWs with hA
  set B := A.reverse.dropWhile isJsWs with hB
  have hBrev : B.reverse.dropWhile isJsWs = B.reverse := by
    apply head_false_dropWhile_eq
    intro c hc
    have hsuf : A.reverse.takeWhile isJsWs ++ B = A.reverse := by
      rw [hB]; exact List.takeWhile_append_dropWhile _ _
    have hApre : A = B.reverse ++ (A.reverse.takeWhile isJsWs).reverse := by
      have h2 := congrArg List.reverse hsuf
      simpa [List.reverse_append] using h2.symm
    rcases hr : B.reverse with _ | ⟨x, xs⟩
    · rw [hr] at hc; simp at hc
    · rw [hr] at hc
      simp only [List.head?_cons, Option.some.injEq] at hc
      rw [hr] at hApre
      have hcA : A.head? = some c := by rw [hApre, hc]; rfl
      rw [hA] at hcA
      exact dropWhile_head?_false isJsWs s.data c hcA
  rw [hBrev, List.reverse_reverse, hB, dropWhile_idem]

/-- A list without `c` splits into a single segment. -/
theorem splitChar_not_mem {c : Char} : ∀ {l : List Char}, c ∉ l →
    splitChar c l = [l] := by
  intro l h
  induction l with
  | nil => rfl
  | cons a t ih =>
    have hne : ¬ a = c := fun he => h (by simp [he])
    have ht : c ∉ t := fun hm => h (List.mem_cons_of_mem a hm)
    simp only [splitChar, if_neg hne, ih ht]

/-- Splitting `h ++ c :: s` when `h` avoids `c` yields `h` first. -/
theorem splitChar_append {c : Char} : ∀ {h : List Char} (s : List Char),
    c ∉ h → splitChar c (h ++ c :: s) = h :: splitChar c s := by
  intro h s hh
  induction h with
  | nil => simp [splitChar]
  | cons a t ih =>
    have hne : ¬ a = c := fun he => hh (by simp [he])
    have ht : c ∉ t := fun hm => hh (List.mem_cons_of_mem a hm)
    have h2 := ih ht
    simp only [List.cons_append, splitChar, if_neg hne, List.append_eq, h2]

/-- `splitChar` never returns the empty list. -/
theorem splitChar_ne_nil (c : Char) : ∀ l : List Char, splitChar c l ≠ [] := by
  intro l
  induction l with
  | nil => simp [splitChar]
  | cons a t ih =>
    by_cases hc : a = c
    · simp [splitChar, hc]
    · simp only [splitChar, if_neg hc]
      rcases hs : splitChar c t with _ | ⟨x, y⟩
      · simp
      · simp

/-- A single-character containment test agrees with list membership. -/
theorem listInfix_singleton (c : Char) :
    ∀ l : List Char, listInfix [c] l = true ↔ c ∈ l := by
  intro l
  induction l with
  | nil => simp [listInfix, listPrefix]
  | cons a t ih =>
    simp only [listInfix, listPrefix, Bool.or_eq_true, Bool.and_eq_true,
      List.mem_cons, ih, decide_eq_true_eq]
    constructor
    · rintro (⟨h, -⟩ | h)
      · exact Or.inl h
      · exact Or.inr h
    · rintro (h | h)
      · exact Or.inl ⟨h, trivial⟩
      · exact Or.inr h

end IdeLogin

namespace IdeLogin

/-! ## Helper lemmas: classification and verification -/

/-- `String.mk` after `String.data` is the identity. -/
theorem strEta (s : String) : (⟨s.data⟩ : String) = s := by cases s; rfl

/-- A prefix test fails when the heads differ. -/
theorem listPrefix_cons_false {a b : Char} {as bs : List Char} (h : a ≠ b) :
    listPrefix (a :: as) (b :: bs) = false := by
  simp [listPrefix, h]

/-- `verifyPassword` computes exactly the comparison of the encoding it
classifies, whenever neither input is empty. -/
theorem verify_dispatch (bc : String → String → Option Bool)
    (am : String → String → Option String) (p h : String)
    (hp : p ≠ "") (hh : h ≠ "") :
    verifyPassword bc am p h = encodingCompare bc am p (classify h) h := by
  have hp' : (p == "") = false := beq_eq_false_iff_ne.mpr hp
  have hh' : (h == "") = false := beq_eq_false_iff_ne.mpr hh
  unfold verifyPassword classify
  simp only [hp', hh', Bool.or_self]
  split_ifs <;> simp_all [encodingCompare]

/-- An MD5 hex digest always classifies as legacy plain MD5. -/
theorem classify_md5hex (q : String) : classify (md5hex q) = .LegacyPlainMd5 := by
  rcases hd : (md5hex q).data with _ | ⟨c, rest⟩
  · exfalso; have hl := md5hex_length q; rw [hd] at hl; simp at hl
  · have hc : c ∈ lowerHexChars :=
      md5hex_mem q c (by rw [hd]; exact List.mem_cons_self _ _)
    have hcne : c ≠ '$' := (lowerHexChars_ne c hc).1
    have h1 : jsStartsWith (md5hex q) "$2y$" = false := by
      show listPrefix "$2y$".data (md5hex q).data = false
      rw [hd, show "$2y$".data = '$' :: ['2', 'y', '$'] from rfl]
      exact listPrefix_cons_false (fun he => hcne he.symm)
    have h2 : jsStartsWith (md5hex q) "$2a$" = false := by
      show listPrefix "$2a$".data (md5hex q).data = false
      rw [hd, show "$2a$".data = '$' :: ['2', 'a', '$'] from rfl]
      exact listPrefix_cons_false (fun he => hcne he.symm)
    have h3 : jsStartsWith (md5hex q) "$1$" = false := by
      show listPrefix "$1$".data (md5hex q).data = false
      rw [hd, show "$1$".data = '$' :: ['1', '$'] from rfl]
      exact listPrefix_cons_false (fun he => hcne he.symm)
    have h4 : (jsLen (md5hex q) == 32) = true := by
      show ((md5hex q).data.length == 32) = true
      rw [md5hex_length]
      rfl
    unfold classify
    simp [h1, h2, h3, h4, isHexStr_md5hex]

/-- Against a stored MD5 hex digest, verification is exactly equality of
the two digests (both already lowercase). -/
theorem verify_md5hex (bc : String → String → Option Bool)
    (am : String → String → Option String) (p q : String) (hp : p ≠ "") :
    verifyPassword bc am p (md5hex q) = (md5hex p == md5hex q) := by
  have hh : md5hex q ≠ "" := by
    intro he
    have hl := md5hex_length q
    rw [he] at hl
    simp at hl
  rw [verify_dispatch bc am p _ hp hh, classify_md5hex]
  show (jsLower (md5hex p) == jsLower (md5hex q)) = _
  rw [jsLower_md5hex, jsLower_md5hex]

end IdeLogin

namespace IdeLogin

/-- `splitChar` yields at least two segments exactly when the separator
occurs in the list. -/
theorem splitChar_mem_iff (c : Char) :
    ∀ l : List Char, 2 ≤ (splitChar c l).length ↔ c ∈ l := by
  intro l
  induction l with
  | nil => simp [splitChar]
  | cons a t ih =>
    by_cases hc : a = c
    · subst hc
      have hsp : splitChar a (a :: t) = [] :: splitChar a t := by
        simp [splitChar]
      rw [hsp]
      have h1 : 1 ≤ (splitChar a t).length := by
        rcases hs2 : splitChar a t with _ | ⟨x, y⟩
        · exact absurd hs2 (splitChar_ne_nil a t)
        · simp
      simp only [List.length_cons]
      constructor
      · intro _; exact List.mem_cons_self a t
      · intro _; omega
    · rcases hs2 : splitChar c t with _ | ⟨x, y⟩
      · exact absurd hs2 (splitChar_ne_nil c t)
      · have hsp : splitChar c (a :: t) = (a :: x) :: y := by
          simp only [splitChar, if_neg hc, hs2]
        rw [hs2] at ih
        rw [hsp]
        simp only [List.length_cons, List.mem_cons] at ih ⊢
        constructor
        · intro hge; exact Or.inr (ih.mp hge)
        · rintro (he | hm)
          · exact absurd he.symm hc
          · exact ih.mpr hm

/-- Verification of a stored `hash:salt` value with a colon-free salt and a
32-character hex segment compares the salted MD5 digest with the hex
segment, both lowercased. -/
theorem verify_salted (bc : String → String → Option Bool)
    (am : String → String → Option String) (p s h : String)
    (hp : p ≠ "") (hs : s ≠ "") (hsc : ':' ∉ s.data)
    (hlen : h.data.length = 32) (hhex : h.data.all isHexChar = true) :
    verifyPassword bc am p (h ++ ":" ++ s) =
      (jsLower (md5hex (p ++ s)) == jsLower h) := by
  have hdata : (h ++ ":" ++ s).data = h.data ++ ':' :: s.data := by
    rw [String.data_append, String.data_append,
      show ":".data = [':'] from rfl, List.append_assoc]
    rfl
  have hhc : ':' ∉ h.data := by
    intro hm
    have := List.all_eq_true.mp hhex ':' hm
    exact absurd rfl ((isHexChar_ne ':' this).2)
  have hsplit : jsSplit ':' (h ++ ":" ++ s) = [h, s] := by
    unfold jsSplit
    rw [hdata, splitChar_append s.data hhc, splitChar_not_mem hsc]
    simp [strEta]
  rcases hd : h.data with _ | ⟨c, rest⟩
  · exfalso; rw [hd] at hlen; simp at hlen
  · have hchex : isHexChar c = true :=
      List.all_eq_true.mp hhex c (by rw [hd]; exact List.mem_cons_self _ _)
    have hcne : c ≠ '$' := (isHexChar_ne c hchex).1
    have hstored : (h ++ ":" ++ s).data = c :: (rest ++ ':' :: s.data) := by
      rw [hdata, hd]; rfl
    have hne : (h ++ ":" ++ s) ≠ "" := by
      intro he
      have : (h ++ ":" ++ s).data = [] := by rw [he]
      rw [hstored] at this
      simp at this
    have hp' : (p == "") = false := beq_eq_false_iff_ne.mpr hp
    have hh' : ((h ++ ":" ++ s) == "") = false := beq_eq_false_iff_ne.mpr hne
    have h1 : jsStartsWith (h ++ ":" ++ s) "$2y$" = false := by
      show listPrefix "$2y$".data _ = false
      rw [hstored, show "$2y$".data = '$' :: ['2', 'y', '$'] from rfl]
      exact listPrefix_cons_false (fun he => hcne he.symm)
    have h2 : jsStartsWith (h ++ ":" ++ s) "$2a$" = false := by
      show listPrefix "$2a$".data _ = false
      rw [hstored, show "$2a$".data = '$' :: ['2', 'a', '$'] from rfl]
      exact listPrefix_cons_false (fun he => hcne he.symm)
    have h3 : jsStartsWith (h ++ ":" ++ s) "$1$" = false := by
      show listPrefix "$1$".data _ = false
      rw [hstored, show "$1$".data = '$' :: ['1', '$'] from rfl]
      exact listPrefix_cons_false (fun he => hcne he.symm)
    have h4 : (jsLen (h ++ ":" ++ s) == 32) = false := by
      have hl2 : jsLen (h ++ ":" ++ s) = 33 + s.data.length := by
        show (h ++ ":" ++ s).data.length = _
        rw [hdata, List.length_append, hlen, List.length_cons]
        omega
      rw [hl2]
      exact beq_eq_false_iff_ne.mpr (by omega)
    have h5 : jsIncludes (h ++ ":" ++ s) ":" = true := by
      show listInfix [':'] _ = true
      rw [listInfix_singleton, hdata]
      exact List.mem_append_right _ (List.mem_cons_self _ _)
    have h6 : (jsLen ((jsSplit ':' (h ++ ":" ++ s)).getD 0 "") == 32) = true := by
      rw [hsplit]
      show (h.data.length == 32) = true
      rw [hlen]
      rfl
    have h7 : ((jsSplit ':' (h ++ ":" ++ s)).getD 1 "" != "") = true := by
      rw [hsplit]
      show (s != "") = true
      simp [hs]
    unfold verifyPassword
    simp only [hp', hh', Bool.or_self, Bool.false_or, h1, h2, h3, h4, h5, h6,
      h7, Bool.and_true, Bool.true_and, Bool.false_and, Bool.and_false,
      if_false, if_true, Bool.or_false]
    rw [hsplit]
    rfl

end IdeLogin

namespace IdeLogin

/-- `includes(":")` agrees with membership of `':'` in the data. -/
theorem jsIncludes_colon (h : String) :
    jsIncludes h ":" = true ↔ ':' ∈ h.data := by
  show listInfix ":".data h.data = true ↔ _
  rw [show ":".data = [':'] from rfl]
  exact listInfix_singleton ':' h.data

/-- `split(":")` never returns an empty list. -/
theorem jsSplit_ne_nil (c : Char) (s : String) : jsSplit c s ≠ [] := by
  unfold jsSplit
  intro he
  rcases hq : splitChar c s.data with _ | ⟨x, y⟩
  · exact absurd hq (splitChar_ne_nil _ _)
  · rw [hq] at he; simp at he

/-- The code's classification equals the amended rule set of claim C4. -/
theorem classify_eq_amended (h : String) : classify h = classifyAmendedC4 h := by
  unfold classify classifyAmendedC4
  by_cases h1 : (jsStartsWith h "$2y$" || jsStartsWith h "$2a$") = true
  · simp [h1]
  · simp only [Bool.not_eq_true] at h1
    by_cases h2 : jsStartsWith h "$1$" = true
    · simp [h1, h2]
    · simp only [Bool.not_eq_true] at h2
      by_cases h3 : (jsLen h == 32 && isHexStr h) = true
      · simp [h1, h2, h3]
      · simp only [Bool.not_eq_true] at h3
        simp only [h1, h2, h3, Bool.false_eq_true, if_false]
        rcases hsp : jsSplit ':' h with _ | ⟨p0, rest⟩
        · exact absurd hsp (jsSplit_ne_nil ':' h)
        · cases rest with
          | nil => simp
          | cons p1 rest2 =>
            have hmem : ':' ∈ h.data := by
              rw [← splitChar_mem_iff]
              have hlen2 : (jsSplit ':' h).length =
                  (splitChar ':' h.data).length := by
                unfold jsSplit
                rw [List.length_map]
              rw [← hlen2, hsp]
              simp
            have hin : jsIncludes h ":" = true := (jsIncludes_colon h).mpr hmem
            simp [hin]

end IdeLogin

namespace IdeLogin

/-! ## Helper lemmas: last-login update and admin short-circuit -/

/-- The fetch predicate sees through the last-login update. -/
theorem find_touch (rows : List UserRow) (now userId : Nat) (u : String) :
    (updateLastLogin rows now userId).find?
        (fun r => r.username == u && r.deleted == 0) =
      (rows.find? (fun r => r.username == u && r.deleted == 0)).map
        (fun r => if r.id = userId then { r with lastlogin := now } else r) := by
  unfold updateLastLogin
  rw [List.find?_map]
  have hc : ((fun r : UserRow => r.username == u && r.deleted == 0) ∘
      (fun r => if r.id = userId then { r with lastlogin := now } else r)) =
      (fun r : UserRow => r.username == u && r.deleted == 0) := by
    funext r
    by_cases hid : r.id = userId <;> simp [Function.comp, hid]
  rw [hc]

/-- The last-login update never changes the outcome of authentication. -/
theorem auth_touch (bc : String → String → Option Bool)
    (am : String → String → Option String) (rows : List UserRow)
    (u p : String) (now userId : Nat) :
    (authenticateUser bc am (.ok (updateLastLogin rows now userId)) u p).isOk =
      (authenticateUser bc am (.ok rows) u p).isOk := by
  simp only [authenticateUser, getUserByUsername]
  by_cases hv : jsTrim u = "" ∨ jsLen (jsTrim u) > 100
  · rw [if_pos hv, if_pos hv]
  · rw [if_neg hv, if_neg hv, find_touch]
    rcases hf : rows.find? (fun r => r.username == jsTrim u && r.deleted == 0)
      with _ | r
    · simp [hf]
    · simp only [hf, Option.map_some']
      by_cases hid : r.id = userId
      · rw [if_pos hid]
        by_cases h1 : r.deleted = 1 <;>
          by_cases h2 : r.suspended = 1 <;>
          by_cases h3 : r.confirmed = 0 <;>
          by_cases h4 : verifyPassword bc am p r.password = true <;>
          simp [h1, h2, h3, h4, Except.isOk, Except.toBool]
      · rw [if_neg hid]

/-- Only the `lastlogin` column changes under the last-login update. -/
theorem touch_strip (rows : List UserRow) (now userId : Nat) :
    (updateLastLogin rows now userId).map (fun r => { r with lastlogin := 0 }) =
      rows.map (fun r => { r with lastlogin := 0 }) := by
  unfold updateLastLogin
  rw [List.map_map]
  apply List.map_congr_left
  intro r _
  by_cases hid : r.id = userId <;> simp [Function.comp, hid]

/-- The static admin check short-circuits the handler before any store
access. -/
theorem adminShortcut (bc : String → String → Option Bool)
    (am : String → String → Option String) (env : String → Option String)
    (db : DbState) (now : Nat) (u p : String) (hu : u ≠ "") (hp : p ≠ "")
    (h1 : jsTrim u = (getAdminCredentials env).username)
    (h2 : p = (getAdminCredentials env).password)
    (h3 : jsLen (jsTrim u) ≠ 0) (h4 : jsLen (jsTrim u) ≤ 100) :
    moodleLoginHandler bc am env db now (some (u, p)) =
      (adminResp (getAdminCredentials env), 0, db) := by
  simp only [moodleLoginHandler]
  rw [if_neg (by push_neg; exact ⟨hu, hp⟩)]
  rw [if_neg (by push_neg; exact ⟨h3, by omega⟩)]
  rw [if_pos ⟨h1, h2⟩]

/-! ## Helper lemmas: MD5 is not injective (pigeonhole) -/

/-- Any indexed digest byte is below 256. -/
theorem md5Bytes_getD_lt (msg : List Nat) (i : Nat) :
    (md5Bytes msg).getD i 0 < 256 := by
  by_cases hi : i < (md5Bytes msg).length
  · rw [List.getD_eq_getElem _ _ hi]
    exact md5Bytes_lt msg _ (List.getElem_mem hi)
  · rw [List.getD_eq_default _ _ (by omega)]
    norm_num

/-- Two sixteen-byte lists agreeing at every index are equal. -/
theorem bytes16_ext (l1 l2 : List Nat) (h1 : l1.length = 16)
    (h2 : l2.length = 16)
    (h : ∀ i, i < 16 → l1.getD i 0 = l2.getD i 0) : l1 = l2 := by
  apply List.ext_getElem (by omega)
  intro i hi1 hi2
  have he := h i (by omega)
  rw [l1.getD_eq_getElem 0 (by omega), l2.getD_eq_getElem 0 (by omega)] at he
  exact he

/-- The `n+1`-fold repetition of `a`, an infinite family of distinct
non-empty plaintexts. -/
def aStr (n : Nat) : String := ⟨List.replicate (n + 1) 'a'⟩

/-- A string's MD5 digest viewed as a function into a finite type. -/
def digestFn (s : String) : Fin 16 → Fin 256 :=
  fun i => ⟨(md5Bytes (strBytes s)).getD i.val 0, md5Bytes_getD_lt _ _⟩

/-- MD5 over strings has a collision: two distinct non-empty plaintexts
share a digest (pigeonhole — infinitely many strings, finitely many
digests). -/
theorem md5hex_collision :
    ∃ p q : String, p ≠ "" ∧ q ≠ "" ∧ p ≠ q ∧ md5hex p = md5hex q := by
  obtain ⟨m, n, hmn, hf⟩ :=
    Finite.exists_ne_map_eq_of_infinite (fun k : Nat => digestFn (aStr k))
  refine ⟨aStr m, aStr n, ?_, ?_, ?_, ?_⟩
  · intro he
    have hd := congrArg String.data he
    simp [aStr] at hd
  · intro he
    have hd := congrArg String.data he
    simp [aStr] at hd
  · intro he
    have hd := congrArg (fun s : String => s.data.length) he
    simp only [aStr, List.length_replicate] at hd
    omega
  · have hbytes :
        md5Bytes (strBytes (aStr m)) = md5Bytes (strBytes (aStr n)) := by
      apply bytes16_ext _ _ (md5Bytes_length _) (md5Bytes_length _)
      intro i hi
      simpa [digestFn] using congrFun hf ⟨i, hi⟩
    unfold md5hex
    rw [hbytes]

end IdeLogin

namespace IdeLogin

/-! ## Claim theorems -/

set_option maxRecDepth 200000 in
/-- C1 (counterexample): an account whose `auth` method is `"ldap"` — not
`"manual"` — authenticates successfully, and the fetch query returns a
suspended account rather than filtering it out, contradicting the claim
that the full four-flag predicate sits inside the query and that a
non-`manual` account can never authenticate. -/
theorem claim1_counterexample :
    (authenticateUser bcNone amNone (.ok [ldapRow]) "lena" "pw").isOk = true ∧
    ldapRow.auth ≠ "manual" ∧
    getUserByUsername (.ok [suspendedRow]) "sid" = .ok (some suspendedRow) ∧
    suspendedRow.suspended = 1 := by
  refine ⟨by decide, by decide, rfl, rfl⟩

/-- C1 (amended): the fetch query filters only on the username and
`deleted = 0`; a successful authentication still implies the fetched row is
not deleted, not suspended and confirmed — those two checks happen after
the fetch — and that the password verifies, but nothing constrains the
row's `auth` method. -/
theorem claim1_fetch_eligibility (bc : String → String → Option Bool)
    (am : String → String → Option String) (rows : List UserRow)
    (u p : String) (user : AuthUser)
    (h : authenticateUser bc am (.ok rows) u p = .ok user) :
    ∃ r ∈ rows, r.username = jsTrim u ∧ r.deleted = 0 ∧ r.suspended ≠ 1 ∧
      r.confirmed ≠ 0 ∧ verifyPassword bc am p r.password = true ∧
      user = mkAuthUser r := by
  simp only [authenticateUser, getUserByUsername] at h
  by_cases hv : jsTrim u = "" ∨ jsLen (jsTrim u) > 100
  · rw [if_pos hv] at h; exact absurd h (by simp)
  · rw [if_neg hv] at h
    rcases hf : rows.find? (fun r => r.username == jsTrim u && r.deleted == 0)
      with _ | r
    · simp only [hf] at h
      exact absurd h (by simp)
    · simp only [hf] at h
      have hmem := List.mem_of_find?_eq_some hf
      have hpred := List.find?_some hf
      simp only [Bool.and_eq_true, beq_iff_eq] at hpred
      by_cases h1 : r.deleted = 1
      · rw [if_pos h1] at h; exact absurd h (by simp)
      · rw [if_neg h1] at h
        by_cases h2 : r.suspended = 1
        · rw [if_pos h2] at h; exact absurd h (by simp)
        · rw [if_neg h2] at h
          by_cases h3 : r.confirmed = 0
          · rw [if_pos h3] at h; exact absurd h (by simp)
          · rw [if_neg h3] at h
            by_cases h4 : verifyPassword bc am p r.password = true
            · rw [if_pos h4] at h
              refine ⟨r, hmem, hpred.1, hpred.2, h2, h3, h4, ?_⟩
              injection h with h5
              exact h5.symm
            · rw [if_neg h4] at h; exact absurd h (by simp)

set_option maxRecDepth 200000 in
/-- C1 (witness): a concrete active `manual` account with a matching
password authenticates, instantiating the amended theorem. -/
theorem claim1_witness :
    ∃ r ∈ [manualRow], r.username = jsTrim "mary" ∧ r.deleted = 0 ∧
      r.suspended ≠ 1 ∧ r.confirmed ≠ 0 ∧
      verifyPassword bcNone amNone "s3cret" r.password = true ∧
      mkAuthUser manualRow = mkAuthUser r :=
  claim1_fetch_eligibility bcNone amNone [manualRow] "mary" "s3cret"
    (mkAuthUser manualRow) (by rfl)

end IdeLogin

namespace IdeLogin

/-- `authenticateUser` trims its own input, so pre-trimming is harmless. -/
theorem auth_trim_eq (bc : String → String → Option Bool)
    (am : String → String → Option String) (store : Store) (u p : String) :
    authenticateUser bc am store (jsTrim u) p =
      authenticateUser bc am store u p := by
  simp only [authenticateUser, jsTrim_idem]

/-- Past validation and the admin check, the handler is the database path. -/
theorem handler_db_path (bc : String → String → Option Bool)
    (am : String → String → Option String) (env : String → Option String)
    (store : Store) (now : Nat) (u p : String)
    (hu : u ≠ "") (hp : p ≠ "")
    (hv1 : jsLen (jsTrim u) ≠ 0) (hv2 : jsLen (jsTrim u) ≤ 100)
    (hadm : ¬ (jsTrim u = (getAdminCredentials env).username ∧
      p = (getAdminCredentials env).password)) :
    moodleLoginHandler bc am env (some store) now (some (u, p)) =
      match authenticateUser bc am store (jsTrim u) p with
      | .ok user =>
        (userResp user, 2, some (match store with
          | .ok rows => .ok (updateLastLogin rows now user.id)
          | .error m => .error m))
      | .error m =>
        (failResp 401 "Invalid username or password"
          (if jsIncludes m "not found" then "USER_NOT_FOUND"
           else "INVALID_CREDENTIALS"), 1, some store) := by
  simp only [moodleLoginHandler]
  rw [if_neg (by push_neg; exact ⟨hu, hp⟩)]
  rw [if_neg (by push_neg; exact ⟨hv1, by omega⟩)]
  rw [if_neg hadm]

/-- An absent (or deleted) username makes `authenticateUser` throw
`"User not found"`. -/
theorem auth_not_found (bc : String → String → Option Bool)
    (am : String → String → Option String) (rows : List UserRow)
    (u p : String) (hv : ¬ (jsTrim u = "" ∨ jsLen (jsTrim u) > 100))
    (hf : rows.find? (fun r => r.username == jsTrim u && r.deleted == 0) = none) :
    authenticateUser bc am (.ok rows) u p = .error "User not found" := by
  simp only [authenticateUser, getUserByUsername]
  rw [if_neg hv]
  simp only [hf]

/-- A fetched suspended account makes `authenticateUser` throw
`"User account is suspended"`. -/
theorem auth_suspended (bc : String → String → Option Bool)
    (am : String → String → Option String) (rows : List UserRow)
    (u p : String) (r : UserRow)
    (hv : ¬ (jsTrim u = "" ∨ jsLen (jsTrim u) > 100))
    (hf : rows.find? (fun r => r.username == jsTrim u && r.deleted == 0) = some r)
    (h2 : r.suspended = 1) :
    authenticateUser bc am (.ok rows) u p =
      .error "User account is suspended" := by
  have hpred := List.find?_some hf
  simp only [Bool.and_eq_true, beq_iff_eq] at hpred
  simp only [authenticateUser, getUserByUsername]
  rw [if_neg hv]
  simp only [hf]
  rw [if_neg (by omega : ¬ r.deleted = 1), if_pos h2]

/-- A fetched unconfirmed account makes `authenticateUser` throw
`"User account is not confirmed"`. -/
theorem auth_unconfirmed (bc : String → String → Option Bool)
    (am : String → String → Option String) (rows : List UserRow)
    (u p : String) (r : UserRow)
    (hv : ¬ (jsTrim u = "" ∨ jsLen (jsTrim u) > 100))
    (hf : rows.find? (fun r => r.username == jsTrim u && r.deleted == 0) = some r)
    (h2 : r.suspended ≠ 1) (h3 : r.confirmed = 0) :
    authenticateUser bc am (.ok rows) u p =
      .error "User account is not confirmed" := by
  have hpred := List.find?_some hf
  simp only [Bool.and_eq_true, beq_iff_eq] at hpred
  simp only [authenticateUser, getUserByUsername]
  rw [if_neg hv]
  simp only [hf]
  rw [if_neg (by omega : ¬ r.deleted = 1), if_neg h2, if_pos h3]

/-- A failed password comparison makes `authenticateUser` throw
`"Invalid password"`. -/
theorem auth_bad_password (bc : String → String → Option Bool)
    (am : String → String → Option String) (rows : List UserRow)
    (u p : String) (r : UserRow)
    (hv : ¬ (jsTrim u = "" ∨ jsLen (jsTrim u) > 100))
    (hf : rows.find? (fun r => r.username == jsTrim u && r.deleted == 0) = some r)
    (h2 : r.suspended ≠ 1) (h3 : r.confirmed ≠ 0)
    (h4 : verifyPassword bc am p r.password = false) :
    authenticateUser bc am (.ok rows) u p = .error "Invalid password" := by
  have hpred := List.find?_some hf
  simp only [Bool.and_eq_true, beq_iff_eq] at hpred
  simp only [authenticateUser, getUserByUsername]
  rw [if_neg hv]
  simp only [hf]
  rw [if_neg (by omega : ¬ r.deleted = 1), if_neg h2, if_neg h3,
    if_neg (by simp [h4])]

end IdeLogin

namespace IdeLogin

set_option maxRecDepth 200000 in
/-- C2 (counterexample): two well-formed failing logins — one naming an
absent account, one naming an eligible account with a wrong password —
return *different* machine-readable reason codes (`USER_NOT_FOUND` versus
`INVALID_CREDENTIALS`), so the externally visible failure is not the single
code `INVALID_CREDENTIALS` the claim states, and the two cases are
distinguishable. -/
theorem claim2_counterexample :
    (moodleLoginHandler bcNone amNone envNone (some (.ok [manualRow])) 0
        (some ("zoe", "x"))).1.error = some "USER_NOT_FOUND" ∧
    (moodleLoginHandler bcNone amNone envNone (some (.ok [manualRow])) 0
        (some ("mary", "wrong"))).1.error = some "INVALID_CREDENTIALS" ∧
    some "USER_NOT_FOUND" ≠ some "INVALID_CREDENTIALS" := by
  refine ⟨by decide, by decide, by decide⟩

/-- C2 (amended): both failures surface HTTP 401 with the identical message
`"Invalid username or password"`, but the `error` code distinguishes them:
an absent (or deleted) account yields `USER_NOT_FOUND`, whereas a
suspended, unconfirmed, or wrong-password account yields
`INVALID_CREDENTIALS`. -/
theorem claim2_error_codes (bc : String → String → Option Bool)
    (am : String → String → Option String) (env : String → Option String)
    (rows : List UserRow) (u p : String) (now : Nat)
    (hu : u ≠ "") (hp : p ≠ "")
    (hv1 : jsLen (jsTrim u) ≠ 0) (hv2 : jsLen (jsTrim u) ≤ 100)
    (hadm : ¬ (jsTrim u = (getAdminCredentials env).username ∧
      p = (getAdminCredentials env).password)) :
    (rows.find? (fun r => r.username == jsTrim u && r.deleted == 0) = none →
      moodleLoginHandler bc am env (some (.ok rows)) now (some (u, p)) =
        (failResp 401 "Invalid username or password" "USER_NOT_FOUND", 1,
          some (.ok rows))) ∧
    (∀ r, rows.find? (fun r => r.username == jsTrim u && r.deleted == 0) =
        some r → r.suspended = 1 →
      moodleLoginHandler bc am env (some (.ok rows)) now (some (u, p)) =
        (failResp 401 "Invalid username or password" "INVALID_CREDENTIALS", 1,
          some (.ok rows))) ∧
    (∀ r, rows.find? (fun r => r.username == jsTrim u && r.deleted == 0) =
        some r → r.suspended ≠ 1 → r.confirmed = 0 →
      moodleLoginHandler bc am env (some (.ok rows)) now (some (u, p)) =
        (failResp 401 "Invalid username or password" "INVALID_CREDENTIALS", 1,
          some (.ok rows))) ∧
    (∀ r, rows.find? (fun r => r.username == jsTrim u && r.deleted == 0) =
        some r → r.suspended ≠ 1 → r.confirmed ≠ 0 →
      verifyPassword bc am p r.password = false →
      moodleLoginHandler bc am env (some (.ok rows)) now (some (u, p)) =
        (failResp 401 "Invalid username or password" "INVALID_CREDENTIALS", 1,
          some (.ok rows))) := by
  have hv : ¬ (jsTrim u = "" ∨ jsLen (jsTrim u) > 100) := by
    push_neg
    exact ⟨fun he => hv1 (by rw [he]; rfl), by omega⟩
  have hpath := handler_db_path bc am env (.ok rows) now u p hu hp hv1 hv2 hadm
  refine ⟨?_, ?_, ?_, ?_⟩
  · intro hf
    rw [hpath, auth_trim_eq, auth_not_found bc am rows u p hv hf]
    rfl
  · intro r hf h2
    rw [hpath, auth_trim_eq, auth_suspended bc am rows u p r hv hf h2]
    rfl
  · intro r hf h2 h3
    rw [hpath, auth_trim_eq, auth_unconfirmed bc am rows u p r hv hf h2 h3]
    rfl
  · intro r hf h2 h3 h4
    rw [hpath, auth_trim_eq,
      auth_bad_password bc am rows u p r hv hf h2 h3 h4]
    rfl

set_option maxRecDepth 200000 in
/-- C2 (witness): the amended theorem instantiated at a store holding one
eligible account, for an absent username. -/
theorem claim2_witness :
    moodleLoginHandler bcNone amNone envNone (some (.ok [manualRow])) 0
        (some ("zoe", "x")) =
      (failResp 401 "Invalid username or password" "USER_NOT_FOUND", 1,
        some (.ok [manualRow])) :=
  (claim2_error_codes bcNone amNone envNone [manualRow] "zoe" "x" 0
    (by decide) (by decide) (by decide) (by decide) (by decide)).1 (by decide)

end IdeLogin

namespace IdeLogin

/-- C3 (code bug): when the store query throws (for example
`ECONNREFUSED` during connection acquisition) for a validated, non-admin
login, the handler's inner catch converts the driver error into HTTP 401
`INVALID_CREDENTIALS` instead of the 503 `SERVICE_UNAVAILABLE` the
specification requires; the handler's dedicated `ECONNREFUSED → 503`
branch is unreachable from this path. -/
theorem claim3_store_error_mapped_to_401 :
    moodleLoginHandler bcNone amNone envNone
        (some (.error "connect ECONNREFUSED 127.0.0.1:3306")) 0
        (some ("alice", "pw")) =
      (failResp 401 "Invalid username or password" "INVALID_CREDENTIALS", 1,
        some (.error "connect ECONNREFUSED 127.0.0.1:3306")) ∧
    (failResp 401 "Invalid username or password"
        "INVALID_CREDENTIALS").status ≠ 503 := by
  exact ⟨rfl, by decide⟩

/-- C4 (counterexample): a stored value whose pre-colon segment has 32
*non-hex* characters is still dispatched to the salted-MD5 comparison by
the code, while the claim's rules (which demand a 32-hex segment) would
classify it `Unknown`. -/
theorem claim4_counterexample :
    classify "gggggggggggggggggggggggggggggggg:x" =
      HashEncoding.LegacySaltedMd5 ∧
    classifyClaimC4 "gggggggggggggggggggggggggggggggg:x" =
      HashEncoding.Unknown := by
  exact ⟨by decide, by decide⟩

/-- C4 (amended): classification follows the claim's ordered
first-match-wins rules with rule 4 weakened to demand only a 32-character
(not necessarily hex) segment before the first colon and a non-empty
segment after it; and `verifyPassword` on non-empty inputs performs
exactly the comparison belonging to the classified encoding. -/
theorem claim4_classification (s : String) (bc : String → String → Option Bool)
    (am : String → String → Option String) (p : String)
    (hp : p ≠ "") (hs : s ≠ "") :
    classify s = classifyAmendedC4 s ∧
    verifyPassword bc am p s = encodingCompare bc am p (classify s) s :=
  ⟨classify_eq_amended s, verify_dispatch bc am p s hp hs⟩

/-- C4 (witness): the amended theorem at a concrete MD5-crypt hash. -/
theorem claim4_witness :
    classify "$1$ab$cd" = classifyAmendedC4 "$1$ab$cd" ∧
    verifyPassword bcNone amNone "x" "$1$ab$cd" =
      encodingCompare bcNone amNone "x" (classify "$1$ab$cd") "$1$ab$cd" :=
  claim4_classification "$1$ab$cd" bcNone amNone "x" (by decide) (by decide)

set_option maxRecDepth 200000 in
/-- C5 (counterexample): the claimed equivalence fails in two ways the
code actually exhibits: with an empty plaintext, verification is `false`
even though the digest matches; and with a salt containing a colon, the
code verifies against only the part of the salt before the second colon,
so a stored value built exactly as `md5hex(p + s) + ":" + s` fails to
verify. -/
theorem claim5_counterexample :
    (verifyPassword bcNone amNone "" (md5hex "x" ++ ":" ++ "x") = false ∧
      jsLower (md5hex ("" ++ "x")) = jsLower (md5hex "x")) ∧
    (verifyPassword bcNone amNone "a" (md5hex "ab:c" ++ ":" ++ "b:c") = false ∧
      jsLower (md5hex ("a" ++ "b:c")) = jsLower (md5hex "ab:c")) := by
  exact ⟨⟨by decide, by decide⟩, ⟨by decide, by decide⟩⟩

/-- C5 (amended): for a non-empty plaintext, a 32-character all-hex digest
segment and a non-empty *colon-free* salt, verification of `h:s` succeeds
exactly when the lowercase MD5 of the plaintext with the salt appended
equals the stored hex segment case-insensitively; in particular a stored
value built as `md5hex(p + s) + ":" + s` verifies. -/
theorem claim5_salted_md5 (bc : String → String → Option Bool)
    (am : String → String → Option String) (p s h : String)
    (hp : p ≠ "") (hs : s ≠ "") (hsc : ':' ∉ s.data)
    (hlen : h.data.length = 32) (hhex : h.data.all isHexChar = true) :
    (verifyPassword bc am p (h ++ ":" ++ s) = true ↔
      jsLower (md5hex (p ++ s)) = jsLower h) ∧
    verifyPassword bc am p (md5hex (p ++ s) ++ ":" ++ s) = true := by
  constructor
  · rw [verify_salted bc am p s h hp hs hsc hlen hhex]
    exact beq_iff_eq
  · rw [verify_salted bc am p s (md5hex (p ++ s)) hp hs hsc
      (md5hex_length (p ++ s))
      (List.all_eq_true.mpr fun c hc =>
        lowerHexChars_hex c (md5hex_mem (p ++ s) c hc))]
    exact beq_self_eq_true _

set_option maxRecDepth 200000 in
/-- C5 (witness): the amended theorem at `p = "pw"`, `s = "na"`,
`h = md5hex "pwna"`. -/
theorem claim5_witness :
    (verifyPassword bcNone amNone "pw" (md5hex "pwna" ++ ":" ++ "na") = true ↔
      jsLower (md5hex ("pw" ++ "na")) = jsLower (md5hex "pwna")) ∧
    verifyPassword bcNone amNone "pw"
      (md5hex ("pw" ++ "na") ++ ":" ++ "na") = true :=
  claim5_salted_md5 bcNone amNone "pw" "na" (md5hex "pwna") (by decide)
    (by decide) (by decide) (md5hex_length "pwna")
    (List.all_eq_true.mpr fun c hc =>
      lowerHexChars_hex c (md5hex_mem "pwna" c hc))

end IdeLogin

namespace IdeLogin

/-- C6 (counterexample): the claim fails at the empty plaintext — the
verifier returns `false` on `("", md5hex "")` by the empty-input guard,
though the digests match — and its second half is falsified outright:
MD5 maps infinitely many strings into finitely many 32-hex digests, so by
pigeonhole there are distinct plaintexts `p ≠ p2` with
`verify(p, md5hex p2) = true`. -/
theorem claim6_counterexample :
    verifyPassword bcNone amNone "" (md5hex "") = false ∧
    ¬ (∀ p p2 : String, p ≠ p2 →
        verifyPassword bcNone amNone p (md5hex p2) = false) := by
  constructor
  · decide
  · intro hall
    obtain ⟨p, q, hp, hq, hne, heq⟩ := md5hex_collision
    have hv := hall p q hne
    rw [verify_md5hex bcNone amNone p q hp, heq] at hv
    simp at hv

/-- C6 (amended): for every *non-empty* plaintext `p`,
`verify(p, md5hex p)` is true, and `verify(p, md5hex p2)` is false
whenever the two digests differ (`p ≠ p2` alone cannot suffice, since MD5
is not injective); on a 32-hex stored digest the code compares the
lowercase MD5 hex of the plaintext case-insensitively with the stored
digest. -/
theorem claim6_plain_md5 (bc : String → String → Option Bool)
    (am : String → String → Option String) (p q : String) (hp : p ≠ "") :
    verifyPassword bc am p (md5hex p) = true ∧
    (md5hex p ≠ md5hex q → verifyPassword bc am p (md5hex q) = false) := by
  constructor
  · rw [verify_md5hex bc am p p hp]
    exact beq_self_eq_true _
  · intro hne
    rw [verify_md5hex bc am p q hp]
    exact beq_eq_false_iff_ne.mpr hne

set_option maxRecDepth 200000 in
/-- C6 (witness): the amended theorem at `p = "hello"`, `p2 = "x"`, with
both hypotheses discharged on concrete digests. -/
theorem claim6_witness :
    verifyPassword bcNone amNone "hello" (md5hex "hello") = true ∧
    verifyPassword bcNone amNone "hello" (md5hex "x") = false :=
  ⟨(claim6_plain_md5 bcNone amNone "hello" "x" (by decide)).1,
   (claim6_plain_md5 bcNone amNone "hello" "x" (by decide)).2 (by decide)⟩

/-- A `$1$` prefix excludes the two bcrypt prefixes. -/
theorem dollarOneExcl (h : String) (hpre : jsStartsWith h "$1$" = true) :
    jsStartsWith h "$2y$" = false ∧ jsStartsWith h "$2a$" = false := by
  have hd : ∃ rest, h.data = '$' :: '1' :: '$' :: rest := by
    have h1 : listPrefix "$1$".data h.data = true := hpre
    rw [show "$1$".data = ['$', '1', '$'] from rfl] at h1
    rcases hdd : h.data with _ | ⟨c1, t1⟩
    · rw [hdd] at h1; exact absurd h1 (by decide)
    · rw [hdd] at h1
      rcases t1 with _ | ⟨c2, t2⟩
      · exact absurd h1 (by simp [listPrefix])
      · rcases t2 with _ | ⟨c3, t3⟩
        · exact absurd h1 (by simp [listPrefix])
        · simp only [listPrefix, Bool.and_eq_true, decide_eq_true_eq] at h1
          obtain ⟨hc1, hc2, hc3, -⟩ := h1
          exact ⟨t3, by rw [← hc1, ← hc2, ← hc3]⟩
  obtain ⟨rest, hd⟩ := hd
  constructor
  · show listPrefix "$2y$".data h.data = false
    rw [show "$2y$".data = ['$', '2', 'y', '$'] from rfl, hd]
    rfl
  · show listPrefix "$2a$".data h.data = false
    rw [show "$2a$".data = ['$', '2', 'a', '$'] from rfl, hd]
    rfl

/-- C7: the verifier is a total boolean function, and it returns `false`
with no hashing computation on an empty plaintext or stored hash, on a
stored hash classified `Unknown`, and whenever the dispatched hashing
primitive (the crypt-style MD5 or the bcrypt comparator) throws — a
thrown primitive is modelled by returning `none`. -/
theorem claim7_verify_never_throws (bc : String → String → Option Bool)
    (am : String → String → Option String) (p h : String)
    (hcond : p = "" ∨ h = "" ∨ classify h = .Unknown ∨
      (jsStartsWith h "$1$" = true ∧ am p h = none) ∨
      ((jsStartsWith h "$2y$" = true ∨ jsStartsWith h "$2a$" = true) ∧
        bc p h = none)) :
    verifyPassword bc am p h = false := by
  rcases hcond with hp | hh | hu | ⟨hpre, ham⟩ | ⟨hpre, hbc⟩
  · subst hp; simp [verifyPassword]
  · subst hh; simp [verifyPassword]
  · by_cases hp : p = ""
    · subst hp; simp [verifyPassword]
    · by_cases hh : h = ""
      · subst hh; simp [verifyPassword]
      · rw [verify_dispatch bc am p h hp hh, hu]
        rfl
  · by_cases hp : p = ""
    · subst hp; simp [verifyPassword]
    · have hh : h ≠ "" := by
        intro he
        rw [he] at hpre
        exact absurd hpre (by decide)
      obtain ⟨h2y, h2a⟩ := dollarOneExcl h hpre
      have hp' : (p == "") = false := beq_eq_false_iff_ne.mpr hp
      have hh' : (h == "") = false := beq_eq_false_iff_ne.mpr hh
      unfold verifyPassword
      simp only [hp', hh', Bool.or_self, h2y, h2a, Bool.or_false,
        Bool.false_eq_true, if_false, hpre, if_true, ham]
  · have h1 : (jsStartsWith h "$2y$" || jsStartsWith h "$2a$") = true := by
      rcases hpre with hx | hx <;> simp [hx]
    by_cases hp : p = ""
    · subst hp; simp [verifyPassword]
    · have hh : h ≠ "" := by
        intro he
        rw [he] at h1
        exact absurd h1 (by decide)
      have hp' : (p == "") = false := beq_eq_false_iff_ne.mpr hp
      have hh' : (h == "") = false := beq_eq_false_iff_ne.mpr hh
      unfold verifyPassword
      simp only [hp', hh', Bool.or_self, Bool.false_eq_true, if_false, h1,
        if_true, hbc]

/-- C7 (witness): the theorem applied at an empty plaintext. -/
theorem claim7_witness :
    verifyPassword bcNone amNone "" "not-a-real-hash" = false :=
  claim7_verify_never_throws bcNone amNone "" "not-a-real-hash" (Or.inl rfl)

end IdeLogin

namespace IdeLogin

/-- C8: whenever the trimmed username and the raw password equal the
configured privileged identity (and the input passes validation), the
handler answers immediately with the admin success response tagged
`isAdmin = true`, issues zero store queries, and leaves the store exactly
as it was — for *every* store state, reachable or not. -/
theorem claim8_admin_shortcircuit (bc : String → String → Option Bool)
    (am : String → String → Option String) (env : String → Option String)
    (db : DbState) (now : Nat) (u p : String)
    (hu : u ≠ "") (hp : p ≠ "")
    (h1 : jsTrim u = (getAdminCredentials env).username)
    (h2 : p = (getAdminCredentials env).password)
    (h3 : jsLen (jsTrim u) ≠ 0) (h4 : jsLen (jsTrim u) ≤ 100) :
    moodleLoginHandler bc am env db now (some (u, p)) =
      (adminResp (getAdminCredentials env), 0, db) ∧
    (adminResp (getAdminCredentials env)).isAdmin = some true :=
  ⟨adminShortcut bc am env db now u p hu hp h1 h2 h3 h4, rfl⟩

/-- C8 (witness): the default admin credentials with an uninitialized
store still produce the immediate admin success and zero queries. -/
theorem claim8_witness :
    moodleLoginHandler bcNone amNone envNone none 0
        (some ("admin", "muadmin2025")) =
      (adminResp (getAdminCredentials envNone), 0, none) ∧
    (adminResp (getAdminCredentials envNone)).isAdmin = some true :=
  claim8_admin_shortcircuit bcNone amNone envNone none 0 "admin" "muadmin2025"
    (by decide) (by decide) (by decide) (by decide) (by decide) (by decide)

/-- C9: the last-login update rewrites only the `lastlogin` column —
every other column, in particular `password`, is preserved — and it never
changes the outcome of authentication, so a successful login remains
successful when repeated against the updated store. -/
theorem claim9_idempotent_frame (bc : String → String → Option Bool)
    (am : String → String → Option String) (rows : List UserRow)
    (u p : String) (t i : Nat) :
    ((updateLastLogin rows t i).map (fun r => { r with lastlogin := 0 }) =
      rows.map (fun r => { r with lastlogin := 0 })) ∧
    ((updateLastLogin rows t i).map (fun r => r.password) =
      rows.map (fun r => r.password)) ∧
    ((authenticateUser bc am (.ok (updateLastLogin rows t i)) u p).isOk =
      (authenticateUser bc am (.ok rows) u p).isOk) ∧
    (∀ env now now2,
      (moodleLoginHandler bc am env (some (.ok rows)) now
        (some (u, p))).1.success = true →
      (moodleLoginHandler bc am env (some (.ok (updateLastLogin rows t i)))
        now2 (some (u, p))).1.success = true) := by
  refine ⟨touch_strip rows t i, ?_, auth_touch bc am rows u p t i, ?_⟩
  · unfold updateLastLogin
    rw [List.map_map]
    apply List.map_congr_left
    intro r _
    by_cases hid : r.id = i <;> simp [Function.comp, hid]
  · intro env now now2 hsucc
    simp only [moodleLoginHandler] at hsucc ⊢
    by_cases hc1 : u = "" ∨ p = ""
    · rw [if_pos hc1] at hsucc
      exact absurd hsucc (by simp [failResp])
    · rw [if_neg hc1] at hsucc ⊢
      by_cases hc2 : jsLen (jsTrim u) = 0 ∨ jsLen (jsTrim u) > 100
      · rw [if_pos hc2] at hsucc
        exact absurd hsucc (by simp [failResp])
      · rw [if_neg hc2] at hsucc ⊢
        by_cases hc3 : jsTrim u = (getAdminCredentials env).username ∧
            p = (getAdminCredentials env).password
        · rw [if_pos hc3]
          rfl
        · rw [if_neg hc3] at hsucc ⊢
          rcases ha : authenticateUser bc am (.ok rows) (jsTrim u) p
            with m | user
          · rw [ha] at hsucc
            exact absurd hsucc (by simp [failResp])
          · rcases ha2 : authenticateUser bc am
                (.ok (updateLastLogin rows t i)) (jsTrim u) p with m2 | user2
            · have hinv := auth_touch bc am rows (jsTrim u) p t i
              rw [ha, ha2] at hinv
              simp [Except.isOk, Except.toBool] at hinv
            · simp only [ha2]
              rfl

set_option maxRecDepth 200000 in
/-- C9 (witness): a correct login against the once-updated store still
succeeds. -/
theorem claim9_witness :
    (moodleLoginHandler bcNone amNone envNone
        (some (.ok (updateLastLogin [manualRow] 9 3))) 10
        (some ("mary", "s3cret"))).1.success = true :=
  (claim9_idempotent_frame bcNone amNone [manualRow] "mary" "s3cret"
    9 3).2.2.2 envNone 5 10 (by decide)

/-- C10: with `ADMIN_USERNAME` and `ADMIN_PASSWORD` unset the privileged
identity defaults to `admin` / `muadmin2025` with user id `admin-1`, and
`authenticate("admin", "muadmin2025")` then succeeds with
`isAdmin = true` for every store state, without touching the store. -/
theorem claim10_default_admin :
    getAdminCredentials envNone =
      { username := "admin", password := "muadmin2025", userId := "admin-1",
        firstname := "Admin", lastname := "User" } ∧
    ∀ (bc : String → String → Option Bool)
      (am : String → String → Option String) (db : DbState) (now : Nat),
      moodleLoginHandler bc am envNone db now
          (some ("admin", "muadmin2025")) =
        (adminResp (getAdminCredentials envNone), 0, db) ∧
      (adminResp (getAdminCredentials envNone)).isAdmin = some true := by
  refine ⟨rfl, ?_⟩
  intro bc am db now
  exact ⟨adminShortcut bc am envNone db now "admin" "muadmin2025"
    (by decide) (by decide) (by decide) (by decide) (by decide) (by decide),
    rfl⟩

end IdeLogin
